import Mathlib

/-!
Verification of the batched secondary-index upsert engine of
`src/postgres_client/postgres_client_account_index.rs`.

The engine maintains two derived index tables (token owner and token mint).
We embed the statement builders, the pending buffers with their exact-size
bulk flush, the queueing path, the immediate single-row update path and the
explicit clear operation. Database execution is abstracted by an oracle
`db : Query → Bool` (`true` = the execute/query call succeeded); issued
queries are returned explicitly so that frame properties ("no query is
issued") are statable.
-/

namespace GeyserPostgres

/-- Number of columns of each token index table (TOKEN_INDEX_COLUMN_COUNT). -/
def TOKEN_INDEX_COLUMN_COUNT : Nat := 3

/-- A pending secondary-index row (struct `TokenSecondaryIndex`): the indexed
key (owner or mint public key bytes, stored in the field named `owner`), the
account key bytes, and the slot. Byte vectors are modelled as `List Nat`. -/
structure TokenSecondaryIndex where
  owner : List Nat
  account_key : List Nat
  slot : Int
deriving DecidableEq, Repr

/-- An account update delivered to the engine (struct `DbAccountInfo`, whose
accessors `pubkey()`, `owner()`, `data()` and field `slot` are what this file
uses): the account public key, the owning program id, the raw data payload
and the slot. -/
structure DbAccountInfo where
  pubkey : List Nat
  owner : List Nat
  data : List Nat
  slot : Int
deriving DecidableEq, Repr

/-- A database query issued by the engine: either a bulk upsert carrying the
buffered rows, or a single-row upsert carrying one row. -/
inductive Query where
  | bulkInsert : List TokenSecondaryIndex → Query
  | singleUpsert : TokenSecondaryIndex → Query
deriving DecidableEq, Repr

/-- The error type surfaced by the engine (`AccountsDbPluginError` variants
used in this file): `AccountsUpdateError` for failed executions,
`DataSchemaError` for failed statement preparation. -/
inductive AccountsDbPluginError where
  | AccountsUpdateError : String → AccountsDbPluginError
  | DataSchemaError : String → AccountsDbPluginError
deriving DecidableEq, Repr

/-- The engine state (the fields of `SimplePostgresClient` used by this
file): the configured batch size, the two index toggles, and the two pending
buffers. -/
structure SimplePostgresClient where
  batch_size : Nat
  index_token_owner : Bool
  index_token_mint : Bool
  pending_token_owner_index : List TokenSecondaryIndex
  pending_token_mint_index : List TokenSecondaryIndex
deriving DecidableEq, Repr

/-! ## Statement builder -/

/-- The single-row owner-index upsert SQL text built by
`build_single_token_owner_index_upsert_statement`. -/
def build_single_token_owner_index_upsert_statement : String :=
  "INSERT INTO spl_token_owner_index AS owner_index (owner_key, account_key, slot) VALUES ($1, $2, $3) ON CONFLICT (owner_key, account_key) DO UPDATE SET slot=excluded.slot WHERE owner_index.slot < excluded.slot"

/-- The single-row mint-index upsert SQL text built by
`build_single_token_mint_index_upsert_statement`. -/
def build_single_token_mint_index_upsert_statement : String :=
  "INSERT INTO spl_token_mint_index AS mint_index (mint_key, account_key, slot) VALUES ($1, $2, $3) ON CONFLICT (mint_key, account_key) DO UPDATE SET slot=excluded.slot WHERE mint_index.slot < excluded.slot"

/-- The value tuple emitted for loop index `j` in the bulk statement builder:
`row = j * TOKEN_INDEX_COLUMN_COUNT` and the tuple uses parameter positions
`row + 1`, `row + 2`, `row + 3`. -/
def bulkValStr (j : Nat) : String :=
  "($" ++ toString (j * TOKEN_INDEX_COLUMN_COUNT + 1) ++ ", $" ++
    toString (j * TOKEN_INDEX_COLUMN_COUNT + 2) ++ ", $" ++
    toString (j * TOKEN_INDEX_COLUMN_COUNT + 3) ++ ")"

/-- The bulk upsert SQL text built by
`build_bulk_token_index_insert_statement_common`: a header naming the table
and indexed-key column, one value tuple per loop index `j` in `0..batch_size`
(the first joined by a space, the rest by a comma), and the conflict clause. -/
def build_bulk_token_index_insert_statement_common
    (table source_key_name : String) (batch_size : Nat) : String :=
  let stmt :=
    "INSERT INTO " ++ table ++ " AS index (" ++ source_key_name ++
      ", account_key, slot) VALUES"
  let stmt := (List.range batch_size).foldl
    (fun acc j =>
      if j = 0 then acc ++ " " ++ bulkValStr j else acc ++ ", " ++ bulkValStr j)
    stmt
  let handle_conflict :=
    "ON CONFLICT (" ++ source_key_name ++
      ", account_key) DO UPDATE SET slot=excluded.slot where index.slot < excluded.slot"
  stmt ++ " " ++ handle_conflict

/-- The bulk owner-index statement
(`build_bulk_token_owner_index_insert_statement`). -/
def build_bulk_token_owner_index_insert_statement (batch_size : Nat) : String :=
  build_bulk_token_index_insert_statement_common "spl_token_owner_index" "owner_key" batch_size

/-- The bulk mint-index statement
(`build_bulk_token_mint_index_insert_statement`). -/
def build_bulk_token_mint_index_insert_statement (batch_size : Nat) : String :=
  build_bulk_token_index_insert_statement_common "spl_token_mint_index" "mint_key" batch_size

/-! ## Upsert conflict-rule semantics

Both the single-row and the bulk statements resolve a conflicting
`(indexed_key, account_key)` row with
`DO UPDATE SET slot=excluded.slot WHERE index.slot < excluded.slot`.
For a fixed pair, the persisted state is the stored slot (`none` when no row
exists yet); `applyUpsert` is the effect of one upsert at slot `s` under that
rule. -/

/-- Effect on a fixed `(indexed_key, account_key)` pair of one upsert at slot
`s`, under the conflict rule of the statements in the source: insert when the
row is absent; on conflict update the slot only when the stored slot is
strictly smaller than the excluded (new) slot. -/
def applyUpsert (stored : Option Int) (s : Int) : Option Int :=
  match stored with
  | none => some s
  | some t => if t < s then some s else some t

/-! ## Token account classifier

The classifier (`GenericTokenAccount` and its two implementations
`inline_spl_token::Account` and `inline_spl_token_2022::Account`, with the
two program ids) lives outside `src/`; it is modelled from the spec. -/

/-- Modelled from the spec: section 4.1 — a token-program variant of the
classifier, one fixed-offset binary layout with a required length and fixed
offsets of the owner and mint keys (the implementations of the Rust trait
`GenericTokenAccount` are not under `src/`). -/
structure GenericTokenAccount where
  requiredLen : Nat
  ownerOffset : Nat
  mintOffset : Nat
deriving DecidableEq, Repr

/-- Modelled from the spec: `unpack_owner(bytes) → optional key`; returns
"not applicable" (`none`) when the byte payload is shorter than the variant's
required layout size, and the key at the variant's fixed offset otherwise. -/
def unpack_account_owner (g : GenericTokenAccount) (data : List Nat) : Option (List Nat) :=
  if data.length < g.requiredLen then none
  else some ((data.drop g.ownerOffset).take 32)

/-- Modelled from the spec: `unpack_mint(bytes) → optional key`; returns
"not applicable" (`none`) when the byte payload is shorter than the variant's
required layout size, and the key at the variant's fixed offset otherwise. -/
def unpack_account_mint (g : GenericTokenAccount) (data : List Nat) : Option (List Nat) :=
  if data.length < g.requiredLen then none
  else some ((data.drop g.mintOffset).take 32)

/-- Modelled from the spec: the layout of the first supported token program
(`inline_spl_token::Account`, not under `src/`): a 165-byte account with the
mint key at offset 0 and the owner key at offset 32. -/
def spl_token_Account : GenericTokenAccount :=
  { requiredLen := 165, ownerOffset := 32, mintOffset := 0 }

/-- Modelled from the spec: the layout of the second supported token program
(`inline_spl_token_2022::Account`, not under `src/`), sharing the base layout
of the first. -/
def spl_token_2022_Account : GenericTokenAccount :=
  { requiredLen := 165, ownerOffset := 32, mintOffset := 0 }

/-- Modelled from the spec: the program id of the first supported token
program (`inline_spl_token::id()`, not under `src/`), a 32-byte key distinct
from the second program's id. -/
def inline_spl_token_id : List Nat :=
  List.replicate 31 0 ++ [1]

/-- Modelled from the spec: the program id of the second supported token
program (`inline_spl_token_2022::id()`, not under `src/`), a 32-byte key
distinct from the first program's id. -/
def inline_spl_token_2022_id : List Nat :=
  List.replicate 31 0 ++ [2]

/-! ## Buffered bulk path -/

/-- The bulk flush (`bulk_insert_token_index_common`): when the buffer length
equals `batch_size`, gather the first `batch_size` rows as the statement
values, run the query, clear the buffer (before inspecting the result), and
report a failed query as an `AccountsUpdateError`; otherwise do nothing.
Returns the new buffer, the issued queries, and the call result. -/
def bulk_insert_token_index_common (batch_size : Nat) (db : Query → Bool)
    (indexes : List TokenSecondaryIndex) :
    List TokenSecondaryIndex × List Query × Except AccountsDbPluginError Unit :=
  if indexes.length = batch_size then
    let values := indexes.take batch_size
    let q := Query.bulkInsert values
    if db q then
      ([], [q], Except.ok ())
    else
      ([], [q], Except.error (AccountsDbPluginError.AccountsUpdateError
        "Failed to persist the update of account to the PostgreSQL database."))
  else
    (indexes, [], Except.ok ())

/-- The owner-index bulk flush (`bulk_insert_token_owner_index`): runs the
common flush against the owner pending buffer with the configured batch
size. -/
def bulk_insert_token_owner_index (db : Query → Bool) (s : SimplePostgresClient) :
    SimplePostgresClient × List Query × Except AccountsDbPluginError Unit :=
  let r := bulk_insert_token_index_common s.batch_size db s.pending_token_owner_index
  ({ s with pending_token_owner_index := r.1 }, r.2.1, r.2.2)

/-- The mint-index bulk flush (`bulk_insert_token_mint_index`): runs the
common flush against the mint pending buffer with the configured batch
size. -/
def bulk_insert_token_mint_index (db : Query → Bool) (s : SimplePostgresClient) :
    SimplePostgresClient × List Query × Except AccountsDbPluginError Unit :=
  let r := bulk_insert_token_index_common s.batch_size db s.pending_token_mint_index
  ({ s with pending_token_mint_index := r.1 }, r.2.1, r.2.2)

/-- Queue one owner-index row for a variant
(`queue_token_owner_index_generic`): when the account's owning program id
equals the variant's id and the owner key unpacks, push the derived row onto
the owner pending buffer; otherwise leave the state unchanged. -/
def queue_token_owner_index_generic (g : GenericTokenAccount) (token_id : List Nat)
    (s : SimplePostgresClient) (account : DbAccountInfo) : SimplePostgresClient :=
  if account.owner = token_id then
    match unpack_account_owner g account.data with
    | some owner_key =>
      { s with pending_token_owner_index :=
          s.pending_token_owner_index ++
            [{ owner := owner_key, account_key := account.pubkey, slot := account.slot }] }
    | none => s
  else s

/-- Queue one mint-index row for a variant
(`queue_token_mint_index_generic`): when the account's owning program id
equals the variant's id and the mint key unpacks, push the derived row onto
the mint pending buffer; otherwise leave the state unchanged. -/
def queue_token_mint_index_generic (g : GenericTokenAccount) (token_id : List Nat)
    (s : SimplePostgresClient) (account : DbAccountInfo) : SimplePostgresClient :=
  if account.owner = token_id then
    match unpack_account_mint g account.data with
    | some mint_key =>
      { s with pending_token_mint_index :=
          s.pending_token_mint_index ++
            [{ owner := mint_key, account_key := account.pubkey, slot := account.slot }] }
    | none => s
  else s

/-- Queue the secondary indexes for one account (`queue_secondary_indexes`):
when the owner toggle is on, try both variants against the owner buffer; when
the mint toggle is on, try both variants against the mint buffer. -/
def queue_secondary_indexes (s : SimplePostgresClient) (account : DbAccountInfo) :
    SimplePostgresClient :=
  let s1 :=
    if s.index_token_owner then
      queue_token_owner_index_generic spl_token_2022_Account inline_spl_token_2022_id
        (queue_token_owner_index_generic spl_token_Account inline_spl_token_id s account)
        account
    else s
  if s1.index_token_mint then
    queue_token_mint_index_generic spl_token_2022_Account inline_spl_token_2022_id
      (queue_token_mint_index_generic spl_token_Account inline_spl_token_id s1 account)
      account
  else s1

/-! ## Immediate single-row path -/

/-- Immediate single-row owner-index update for a variant
(`update_token_owner_index_generic`): when the owning program id equals the
variant's id and the owner key unpacks, execute the single-row upsert and
report a failed execution as an `AccountsUpdateError`; otherwise do nothing
and return Ok. Returns the issued queries and the call result. -/
def update_token_owner_index_generic (g : GenericTokenAccount) (db : Query → Bool)
    (token_id : List Nat) (account : DbAccountInfo) :
    List Query × Except AccountsDbPluginError Unit :=
  if account.owner = token_id then
    match unpack_account_owner g account.data with
    | some owner_key =>
      let q := Query.singleUpsert
        { owner := owner_key, account_key := account.pubkey, slot := account.slot }
      if db q then ([q], Except.ok ())
      else ([q], Except.error (AccountsDbPluginError.AccountsUpdateError
        "Failed to update the token owner index to the PostgreSQL database."))
    | none => ([], Except.ok ())
  else ([], Except.ok ())

/-- Immediate single-row mint-index update for a variant
(`update_token_mint_index_generic`): when the owning program id equals the
variant's id and the mint key unpacks, execute the single-row upsert and
report a failed execution as an `AccountsUpdateError`; otherwise do nothing
and return Ok. Returns the issued queries and the call result. -/
def update_token_mint_index_generic (g : GenericTokenAccount) (db : Query → Bool)
    (token_id : List Nat) (account : DbAccountInfo) :
    List Query × Except AccountsDbPluginError Unit :=
  if account.owner = token_id then
    match unpack_account_mint g account.data with
    | some mint_key =>
      let q := Query.singleUpsert
        { owner := mint_key, account_key := account.pubkey, slot := account.slot }
      if db q then ([q], Except.ok ())
      else ([q], Except.error (AccountsDbPluginError.AccountsUpdateError
        "Failed to update the token mint index to the PostgreSQL database."))
    | none => ([], Except.ok ())
  else ([], Except.ok ())

/-- Immediate owner-index update (`update_token_owner_index`): run the first
variant, and on success run the second (the `?` operator propagates the first
error without attempting the second). -/
def update_token_owner_index (db : Query → Bool) (account : DbAccountInfo) :
    List Query × Except AccountsDbPluginError Unit :=
  let r1 := update_token_owner_index_generic spl_token_Account db inline_spl_token_id account
  match r1.2 with
  | Except.error e => (r1.1, Except.error e)
  | Except.ok _ =>
    let r2 :=
      update_token_owner_index_generic spl_token_2022_Account db inline_spl_token_2022_id account
    (r1.1 ++ r2.1, r2.2)

/-- Immediate mint-index update (`update_token_mint_index`): run the first
variant, and on success run the second (the `?` operator propagates the first
error without attempting the second). -/
def update_token_mint_index (db : Query → Bool) (account : DbAccountInfo) :
    List Query × Except AccountsDbPluginError Unit :=
  let r1 := update_token_mint_index_generic spl_token_Account db inline_spl_token_id account
  match r1.2 with
  | Except.error e => (r1.1, Except.error e)
  | Except.ok _ =>
    let r2 :=
      update_token_mint_index_generic spl_token_2022_Account db inline_spl_token_2022_id account
    (r1.1 ++ r2.1, r2.2)

/-- Explicit clear (`clear_buffered_indexes`): empty both pending buffers.
Returns the new state and the issued queries (none). -/
def clear_buffered_indexes (s : SimplePostgresClient) : SimplePostgresClient × List Query :=
  ({ s with pending_token_owner_index := [], pending_token_mint_index := [] }, [])

/-! ## Engine step and reachability -/

/-- Modelled from the spec: section 4.4 — the buffered path, "derive rows,
append to the owner and/or mint PendingBuffer, implicitly triggering flush
per 4.3". The caller that invokes the bulk flushes after
`queue_secondary_indexes` is not under `src/`; per the spec, one buffered
engine step queues the account and then runs both bulk flushes. -/
def processAccountBuffered (db : Query → Bool) (s : SimplePostgresClient)
    (account : DbAccountInfo) : SimplePostgresClient :=
  let s1 := queue_secondary_indexes s account
  let s2 := (bulk_insert_token_owner_index db s1).1
  (bulk_insert_token_mint_index db s2).1

/-- Reachable engine states: an initial state has empty buffers and a
positive batch size (the spec, section 6, requires `batch_size` to be a
positive integer); a step is a buffered engine step for some account, or an
explicit clear. -/
inductive Reachable (db : Query → Bool) : SimplePostgresClient → Prop where
  | init : ∀ bs fo fm, 0 < bs →
      Reachable db
        { batch_size := bs, index_token_owner := fo, index_token_mint := fm,
          pending_token_owner_index := [], pending_token_mint_index := [] }
  | step : ∀ s account, Reachable db s → Reachable db (processAccountBuffered db s account)
  | clearStep : ∀ s, Reachable db s → Reachable db (clear_buffered_indexes s).1

/-! ## Helper lemmas: upsert conflict rule -/

lemma applyUpsert_some (t s : Int) : applyUpsert (some t) s = some (max t s) := by
  simp only [applyUpsert]
  split_ifs with h
  · rw [max_eq_right h.le]
  · rw [max_eq_left (not_lt.mp h)]

lemma foldl_applyUpsert_some (a : Int) (l : List Int) :
    List.foldl applyUpsert (some a) l = some (List.foldl max a l) := by
  induction l generalizing a with
  | nil => rfl
  | cons x xs ih => simp only [List.foldl_cons, applyUpsert_some, ih]

lemma applyUpsert_right_comm (b : Option Int) (x y : Int) :
    applyUpsert (applyUpsert b x) y = applyUpsert (applyUpsert b y) x := by
  cases b with
  | none =>
    show applyUpsert (some x) y = applyUpsert (some y) x
    rw [applyUpsert_some, applyUpsert_some, max_comm]
  | some t =>
    show applyUpsert (applyUpsert (some t) x) y = applyUpsert (applyUpsert (some t) y) x
    rw [applyUpsert_some, applyUpsert_some, applyUpsert_some, applyUpsert_some, sup_right_comm]

lemma le_foldl_max_self (l : List Int) : ∀ a : Int, a ≤ List.foldl max a l := by
  induction l with
  | nil => intro a; exact le_refl a
  | cons y ys ih =>
    intro a
    rw [List.foldl_cons]
    exact le_trans (le_max_left a y) (ih (max a y))

lemma foldl_max_mem (l : List Int) : ∀ a : Int, List.foldl max a l ∈ a :: l := by
  induction l with
  | nil => intro a; simp
  | cons x xs ih =>
    intro a
    rw [List.foldl_cons]
    have h := ih (max a x)
    rw [List.mem_cons] at h
    rcases h with h | h
    · rcases max_choice a x with hc | hc
      · rw [h, hc]; simp
      · rw [h, hc]; simp
    · simp [h]

lemma foldl_max_le (l : List Int) : ∀ a x : Int, x ∈ a :: l → x ≤ List.foldl max a l := by
  induction l with
  | nil =>
    intro a x hx
    rw [List.mem_singleton] at hx
    rw [hx]
    exact le_refl a
  | cons y ys ih =>
    intro a x hx
    rw [List.foldl_cons]
    rw [List.mem_cons] at hx
    rcases hx with rfl | hx
    · exact le_trans (le_max_left x y) (le_foldl_max_self ys (max x y))
    · rw [List.mem_cons] at hx
      rcases hx with rfl | hx
      · exact le_trans (le_max_right a x) (le_foldl_max_self ys (max a x))
      · exact ih (max a y) x (List.mem_cons_of_mem _ hx)

/-- C1: for every sequence of secondary-index upserts to the same
(indexed_key, account_key) pair under the conflict rule
`DO UPDATE SET slot=excluded.slot WHERE existing.slot < excluded.slot` of the
single-row and bulk statements, an upsert whose slot is not greater than the
stored slot leaves the row unchanged; the slot persisted after a nonempty
sequence is the fold of `max` over the sequence, which is order-independent
and is the maximum: an element of the sequence at least as large as every
element. -/
theorem C1_upsert_slot_is_max :
    (∀ t s : Int, s ≤ t → applyUpsert (some t) s = some t) ∧
    (∀ (a : Int) (l : List Int),
      List.foldl applyUpsert none (a :: l) = some (List.foldl max a l)) ∧
    (∀ (l1 l2 : List Int), l1.Perm l2 →
      List.foldl applyUpsert none l1 = List.foldl applyUpsert none l2) ∧
    (∀ (a : Int) (l : List Int),
      List.foldl max a l ∈ a :: l ∧ ∀ x ∈ a :: l, x ≤ List.foldl max a l) := by
  refine ⟨?_, ?_, ?_, ?_⟩
  · intro t s h
    rw [applyUpsert_some, max_eq_left h]
  · intro a l
    rw [List.foldl_cons]
    exact foldl_applyUpsert_some a l
  · intro l1 l2 hp
    haveI : RightCommutative applyUpsert := ⟨applyUpsert_right_comm⟩
    exact hp.foldl_eq none
  · intro a l
    exact ⟨foldl_max_mem l a, foldl_max_le l a⟩

/-- Witness for C1 at concrete inputs: an upsert at slot 3 over stored slot 5
is a no-op, and the sequence 5, 3, 9 persists slot 9. -/
theorem C1_upsert_slot_is_max_witness :
    applyUpsert (some 5) 3 = some 5 ∧
    List.foldl applyUpsert none [5, 3, 9] = some 9 := by
  constructor
  · exact C1_upsert_slot_is_max.1 5 3 (by decide)
  · have h := C1_upsert_slot_is_max.2.1 5 [3, 9]
    rw [h]
    decide

/-! ## Helper lemmas: bulk statement shape -/

/-- Value tuple `i` (0-indexed) as the claim describes it: parameter
positions `3i+1`, `3i+2`, `3i+3`. -/
def specValueTuple (i : Nat) : String :=
  "($" ++ toString (3 * i + 1) ++ ", $" ++ toString (3 * i + 2) ++ ", $" ++
    toString (3 * i + 3) ++ ")"

/-- The claim's list of value tuples for a batch of `n` rows, in buffer
order. -/
def specTuplesList (n : Nat) : List String :=
  (List.range n).map specValueTuple

/-- Comma-join of a list of value tuples. -/
def joinComma : List String → String
  | [] => ""
  | [x] => x
  | x :: y :: rest => x ++ ", " ++ joinComma (y :: rest)

lemma bulkValStr_eq_specValueTuple (j : Nat) : bulkValStr j = specValueTuple j := by
  simp only [bulkValStr, specValueTuple, TOKEN_INDEX_COLUMN_COUNT, Nat.mul_comm]

lemma joinComma_append_single (l : List String) (x : String) (h : l ≠ []) :
    joinComma (l ++ [x]) = joinComma l ++ ", " ++ x := by
  induction l with
  | nil => exact absurd rfl h
  | cons a as ih =>
    cases as with
    | nil => rfl
    | cons b bs =>
      have hne : b :: bs ≠ [] := by simp
      show a ++ ", " ++ joinComma ((b :: bs) ++ [x]) = _
      rw [ih hne]
      simp only [joinComma, String.append_assoc]

lemma specTuplesList_succ (n : Nat) :
    specTuplesList (n + 1) = specTuplesList n ++ [specValueTuple n] := by
  simp [specTuplesList, List.range_succ]

lemma bulk_values_loop_eq (stmt : String) :
    ∀ n : Nat, 1 ≤ n →
      (List.range n).foldl
        (fun acc j =>
          if j = 0 then acc ++ " " ++ bulkValStr j else acc ++ ", " ++ bulkValStr j)
        stmt = stmt ++ " " ++ joinComma (specTuplesList n) := by
  intro n
  induction n with
  | zero => intro h; exact absurd h (by decide)
  | succ m ih =>
    intro _
    rw [List.range_succ, List.foldl_append]
    cases m with
    | zero =>
      simp only [List.foldl_cons, List.foldl_nil, List.range_zero]
      rw [if_pos trivial, bulkValStr_eq_specValueTuple]
      have h1 : joinComma (specTuplesList 1) = specValueTuple 0 := by
        simp [specTuplesList, joinComma, List.range_succ]
      rw [h1]
    | succ k =>
      simp only [List.foldl_cons, List.foldl_nil]
      rw [ih (Nat.succ_le_succ (Nat.zero_le k))]
      have hne : specTuplesList (k + 1) ≠ [] := by
        simp [specTuplesList, List.range_succ]
      rw [if_neg (Nat.succ_ne_zero k), specTuplesList_succ (k + 1),
        joinComma_append_single _ _ hne, bulkValStr_eq_specValueTuple]
      simp only [String.append_assoc]

set_option maxRecDepth 8000 in
/-- C4: for every table name, indexed-key column name and batch size of at
least one, the bulk upsert statement is the header, then exactly
`batch_size` value tuples in buffer order joined by commas, where tuple `i`
(0-indexed) uses parameter positions `3i+1`, `3i+2`, `3i+3`, then the
conflict clause; in particular for `batch_size = 4` the positions are
(1,2,3), (4,5,6), (7,8,9), (10,11,12). -/
theorem C4_bulk_statement_shape :
    (∀ (table source_key_name : String) (batch_size : Nat), 1 ≤ batch_size →
      build_bulk_token_index_insert_statement_common table source_key_name batch_size =
        "INSERT INTO " ++ table ++ " AS index (" ++ source_key_name ++
          ", account_key, slot) VALUES" ++ " " ++ joinComma (specTuplesList batch_size) ++
          " " ++ ("ON CONFLICT (" ++ source_key_name ++
            ", account_key) DO UPDATE SET slot=excluded.slot where index.slot < excluded.slot")) ∧
    (∀ n : Nat, (specTuplesList n).length = n) ∧
    (∀ n i : Nat, (hi : i < n) →
      (specTuplesList n).get ⟨i, by simpa [specTuplesList] using hi⟩ =
        "($" ++ toString (3 * i + 1) ++ ", $" ++ toString (3 * i + 2) ++ ", $" ++
          toString (3 * i + 3) ++ ")") ∧
    build_bulk_token_owner_index_insert_statement 4 =
      "INSERT INTO spl_token_owner_index AS index (owner_key, account_key, slot) VALUES ($1, $2, $3), ($4, $5, $6), ($7, $8, $9), ($10, $11, $12) ON CONFLICT (owner_key, account_key) DO UPDATE SET slot=excluded.slot where index.slot < excluded.slot" := by
  refine ⟨?_, ?_, ?_, ?_⟩
  · intro table source_key_name batch_size h
    show (List.range batch_size).foldl _ _ ++ " " ++ _ = _
    rw [bulk_values_loop_eq _ batch_size h]
  · intro n
    simp [specTuplesList]
  · intro n i hi
    simp [specTuplesList, specValueTuple]
  · decide

/-- Witness for C4: the bulk statement for a one-row batch is the header, a
single value tuple with positions 1, 2, 3, and the conflict clause. -/
theorem C4_bulk_statement_shape_witness :
    build_bulk_token_index_insert_statement_common "spl_token_mint_index" "mint_key" 1 =
      "INSERT INTO " ++ "spl_token_mint_index" ++ " AS index (" ++ "mint_key" ++
        ", account_key, slot) VALUES" ++ " " ++ joinComma (specTuplesList 1) ++
        " " ++ ("ON CONFLICT (" ++ "mint_key" ++
          ", account_key) DO UPDATE SET slot=excluded.slot where index.slot < excluded.slot") :=
  C4_bulk_statement_shape.1 "spl_token_mint_index" "mint_key" 1 (by decide)

/-! ## Flush and clear -/

lemma bulk_common_skip (batch_size : Nat) (db : Query → Bool)
    (indexes : List TokenSecondaryIndex) (h : indexes.length ≠ batch_size) :
    bulk_insert_token_index_common batch_size db indexes = (indexes, [], Except.ok ()) := by
  unfold bulk_insert_token_index_common
  rw [if_neg h]

lemma bulk_common_full (batch_size : Nat) (db : Query → Bool)
    (indexes : List TokenSecondaryIndex) (h : indexes.length = batch_size) :
    bulk_insert_token_index_common batch_size db indexes =
      if db (Query.bulkInsert (indexes.take batch_size)) then
        ([], [Query.bulkInsert (indexes.take batch_size)], Except.ok ())
      else
        ([], [Query.bulkInsert (indexes.take batch_size)],
          Except.error (AccountsDbPluginError.AccountsUpdateError
            "Failed to persist the update of account to the PostgreSQL database.")) := by
  unfold bulk_insert_token_index_common
  rw [if_pos h]

/-- C3: the common bulk flush issues its query exactly when the buffer length
equals the batch size: on length mismatch it returns Ok with no query and the
buffer unchanged (so it is drained only by an explicit clear), on exact match
it issues exactly the one bulk statement; the owner and mint wrappers issue
no query and leave the whole state unchanged on mismatch against the
configured batch size, and the explicit clear issues no query. -/
theorem C3_flush_exact_size (batch_size : Nat) (db : Query → Bool)
    (indexes : List TokenSecondaryIndex) (s : SimplePostgresClient) :
    (indexes.length ≠ batch_size →
      bulk_insert_token_index_common batch_size db indexes = (indexes, [], Except.ok ())) ∧
    (indexes.length = batch_size →
      (bulk_insert_token_index_common batch_size db indexes).2.1 =
        [Query.bulkInsert (indexes.take batch_size)]) ∧
    (s.pending_token_owner_index.length ≠ s.batch_size →
      bulk_insert_token_owner_index db s = (s, [], Except.ok ())) ∧
    (s.pending_token_mint_index.length ≠ s.batch_size →
      bulk_insert_token_mint_index db s = (s, [], Except.ok ())) ∧
    (clear_buffered_indexes s).2 = [] := by
  refine ⟨?_, ?_, ?_, ?_, rfl⟩
  · exact bulk_common_skip batch_size db indexes
  · intro h
    rw [bulk_common_full batch_size db indexes h]
    by_cases hdb : db (Query.bulkInsert (indexes.take batch_size))
    · rw [if_pos hdb]
    · rw [if_neg hdb]
  · intro h
    unfold bulk_insert_token_owner_index
    rw [bulk_common_skip s.batch_size db s.pending_token_owner_index h]
  · intro h
    unfold bulk_insert_token_mint_index
    rw [bulk_common_skip s.batch_size db s.pending_token_mint_index h]

/-- Witness for C3 at concrete inputs: with batch size 2, an empty buffer is
not flushed and a two-row buffer issues exactly one bulk statement. -/
theorem C3_flush_exact_size_witness :
    bulk_insert_token_index_common 2 (fun _ => true) [] = ([], [], Except.ok ()) ∧
    (bulk_insert_token_index_common 2 (fun _ => true)
        [⟨[1], [2], 3⟩, ⟨[4], [5], 6⟩]).2.1 =
      [Query.bulkInsert (List.take 2 [⟨[1], [2], 3⟩, ⟨[4], [5], 6⟩])] := by
  constructor
  · exact (C3_flush_exact_size 2 (fun _ => true) []
      ⟨2, true, true, [], []⟩).1 (by decide)
  · exact (C3_flush_exact_size 2 (fun _ => true) [⟨[1], [2], 3⟩, ⟨[4], [5], 6⟩]
      ⟨2, true, true, [], []⟩).2.1 (by decide)

/-- C5: a flush of a full buffer empties the buffer whether the query
succeeds or fails; on success it returns Ok, and on failure it returns the
`AccountsUpdateError` data-layer error to the caller. -/
theorem C5_failed_flush_discards (batch_size : Nat) (db : Query → Bool)
    (indexes : List TokenSecondaryIndex) (h : indexes.length = batch_size) :
    (bulk_insert_token_index_common batch_size db indexes).1 = [] ∧
    (db (Query.bulkInsert (indexes.take batch_size)) = true →
      (bulk_insert_token_index_common batch_size db indexes).2.2 = Except.ok ()) ∧
    (db (Query.bulkInsert (indexes.take batch_size)) = false →
      (bulk_insert_token_index_common batch_size db indexes).2.2 =
        Except.error (AccountsDbPluginError.AccountsUpdateError
          "Failed to persist the update of account to the PostgreSQL database.")) := by
  rw [bulk_common_full batch_size db indexes h]
  by_cases hdb : db (Query.bulkInsert (indexes.take batch_size))
  · rw [if_pos hdb]
    exact ⟨rfl, fun _ => rfl, fun hc => absurd hdb (by simp [hc])⟩
  · rw [if_neg hdb]
    exact ⟨rfl, fun hc => absurd hc hdb, fun _ => rfl⟩

/-- Witness for C5 at a concrete input: flushing a full one-row buffer
against a failing database empties the buffer and reports the update
error. -/
theorem C5_failed_flush_discards_witness :
    (bulk_insert_token_index_common 1 (fun _ => false) [⟨[1], [2], 3⟩]).1 = [] ∧
    (bulk_insert_token_index_common 1 (fun _ => false) [⟨[1], [2], 3⟩]).2.2 =
      Except.error (AccountsDbPluginError.AccountsUpdateError
        "Failed to persist the update of account to the PostgreSQL database.") := by
  have h := C5_failed_flush_discards 1 (fun _ => false) [⟨[1], [2], 3⟩] (by decide)
  exact ⟨h.1, h.2.2 rfl⟩

/-- C8: the explicit clear empties both pending buffers unconditionally,
issues no database query, and leaves every other field of the client (batch
size and both index toggles) unchanged. -/
theorem C8_clear_frame (s : SimplePostgresClient) :
    (clear_buffered_indexes s).1.pending_token_owner_index = [] ∧
    (clear_buffered_indexes s).1.pending_token_mint_index = [] ∧
    (clear_buffered_indexes s).1.batch_size = s.batch_size ∧
    (clear_buffered_indexes s).1.index_token_owner = s.index_token_owner ∧
    (clear_buffered_indexes s).1.index_token_mint = s.index_token_mint ∧
    (clear_buffered_indexes s).2 = [] :=
  ⟨rfl, rfl, rfl, rfl, rfl, rfl⟩

/-- C9: calling the common bulk flush with a buffer strictly longer than the
batch size issues no query, leaves the buffer intact, and returns Ok, so an
oversized buffer is never flushed by this operation. -/
theorem C9_oversized_buffer_untouched (batch_size : Nat) (db : Query → Bool)
    (indexes : List TokenSecondaryIndex) (h : batch_size < indexes.length) :
    bulk_insert_token_index_common batch_size db indexes = (indexes, [], Except.ok ()) :=
  bulk_common_skip batch_size db indexes (Nat.ne_of_gt h)

/-- Witness for C9 at a concrete input: a one-row buffer with batch size 0 is
left intact with no query. -/
theorem C9_oversized_buffer_untouched_witness :
    bulk_insert_token_index_common 0 (fun _ => true) [⟨[1], [2], 3⟩] =
      ([⟨[1], [2], 3⟩], [], Except.ok ()) :=
  C9_oversized_buffer_untouched 0 (fun _ => true) [⟨[1], [2], 3⟩] (by decide)

/-! ## Queueing -/

lemma queue_token_owner_index_generic_spec (g : GenericTokenAccount) (tid : List Nat)
    (s : SimplePostgresClient) (a : DbAccountInfo) :
    ∃ ext : List TokenSecondaryIndex,
      queue_token_owner_index_generic g tid s a =
        { s with pending_token_owner_index := s.pending_token_owner_index ++ ext } ∧
      ext.length ≤ 1 ∧ (a.owner ≠ tid → ext = []) := by
  unfold queue_token_owner_index_generic
  by_cases h : a.owner = tid
  · rw [if_pos h]
    cases hu : unpack_account_owner g a.data with
    | none =>
      refine ⟨[], ?_, by decide, fun _ => rfl⟩
      simp
    | some k =>
      exact ⟨[⟨k, a.pubkey, a.slot⟩], rfl, by simp, fun hn => absurd h hn⟩
  · rw [if_neg h]
    refine ⟨[], ?_, by decide, fun _ => rfl⟩
    simp

lemma queue_token_mint_index_generic_spec (g : GenericTokenAccount) (tid : List Nat)
    (s : SimplePostgresClient) (a : DbAccountInfo) :
    ∃ ext : List TokenSecondaryIndex,
      queue_token_mint_index_generic g tid s a =
        { s with pending_token_mint_index := s.pending_token_mint_index ++ ext } ∧
      ext.length ≤ 1 ∧ (a.owner ≠ tid → ext = []) := by
  unfold queue_token_mint_index_generic
  by_cases h : a.owner = tid
  · rw [if_pos h]
    cases hu : unpack_account_mint g a.data with
    | none =>
      refine ⟨[], ?_, by decide, fun _ => rfl⟩
      simp
    | some k =>
      exact ⟨[⟨k, a.pubkey, a.slot⟩], rfl, by simp, fun hn => absurd h hn⟩
  · rw [if_neg h]
    refine ⟨[], ?_, by decide, fun _ => rfl⟩
    simp

lemma token_program_ids_distinct : inline_spl_token_id ≠ inline_spl_token_2022_id := by
  decide

lemma queue_owner_pair_spec (s : SimplePostgresClient) (a : DbAccountInfo) :
    ∃ ext : List TokenSecondaryIndex,
      queue_token_owner_index_generic spl_token_2022_Account inline_spl_token_2022_id
          (queue_token_owner_index_generic spl_token_Account inline_spl_token_id s a) a =
        { s with pending_token_owner_index := s.pending_token_owner_index ++ ext } ∧
      ext.length ≤ 1 := by
  obtain ⟨e1, h1, hl1, hn1⟩ :=
    queue_token_owner_index_generic_spec spl_token_Account inline_spl_token_id s a
  rw [h1]
  obtain ⟨e2, h2, hl2, hn2⟩ :=
    queue_token_owner_index_generic_spec spl_token_2022_Account inline_spl_token_2022_id
      { s with pending_token_owner_index := s.pending_token_owner_index ++ e1 } a
  rw [h2]
  refine ⟨e1 ++ e2, by simp, ?_⟩
  by_cases hid : a.owner = inline_spl_token_id
  · have hne : a.owner ≠ inline_spl_token_2022_id := by
      rw [hid]; exact token_program_ids_distinct
    rw [hn2 hne]
    simpa using hl1
  · rw [hn1 hid]
    simpa using hl2

lemma queue_mint_pair_spec (s : SimplePostgresClient) (a : DbAccountInfo) :
    ∃ ext : List TokenSecondaryIndex,
      queue_token_mint_index_generic spl_token_2022_Account inline_spl_token_2022_id
          (queue_token_mint_index_generic spl_token_Account inline_spl_token_id s a) a =
        { s with pending_token_mint_index := s.pending_token_mint_index ++ ext } ∧
      ext.length ≤ 1 := by
  obtain ⟨e1, h1, hl1, hn1⟩ :=
    queue_token_mint_index_generic_spec spl_token_Account inline_spl_token_id s a
  rw [h1]
  obtain ⟨e2, h2, hl2, hn2⟩ :=
    queue_token_mint_index_generic_spec spl_token_2022_Account inline_spl_token_2022_id
      { s with pending_token_mint_index := s.pending_token_mint_index ++ e1 } a
  rw [h2]
  refine ⟨e1 ++ e2, by simp, ?_⟩
  by_cases hid : a.owner = inline_spl_token_id
  · have hne : a.owner ≠ inline_spl_token_2022_id := by
      rw [hid]; exact token_program_ids_distinct
    rw [hn2 hne]
    simpa using hl1
  · rw [hn1 hid]
    simpa using hl2

lemma queue_secondary_indexes_spec (s : SimplePostgresClient) (a : DbAccountInfo) :
    ∃ e1 e2 : List TokenSecondaryIndex,
      queue_secondary_indexes s a =
        { s with pending_token_owner_index := s.pending_token_owner_index ++ e1,
                 pending_token_mint_index := s.pending_token_mint_index ++ e2 } ∧
      e1.length ≤ 1 ∧ e2.length ≤ 1 ∧
      (s.index_token_owner = false → e1 = []) ∧
      (s.index_token_mint = false → e2 = []) := by
  unfold queue_secondary_indexes
  by_cases ho : s.index_token_owner = true
  · rw [if_pos ho]
    obtain ⟨e1, h1, hl1⟩ := queue_owner_pair_spec s a
    rw [h1]
    by_cases hm : s.index_token_mint = true
    · have hm2 : ({ s with pending_token_owner_index := s.pending_token_owner_index ++ e1 } :
          SimplePostgresClient).index_token_mint = true := hm
      rw [if_pos hm2]
      obtain ⟨e2, h2, hl2⟩ := queue_mint_pair_spec
        { s with pending_token_owner_index := s.pending_token_owner_index ++ e1 } a
      rw [h2]
      refine ⟨e1, e2, rfl, hl1, hl2, ?_, ?_⟩
      · intro hf; rw [ho] at hf; exact absurd hf (by decide)
      · intro hf; rw [hm] at hf; exact absurd hf (by decide)
    · have hm2 : ¬ ({ s with pending_token_owner_index := s.pending_token_owner_index ++ e1 } :
          SimplePostgresClient).index_token_mint = true := hm
      rw [if_neg hm2]
      refine ⟨e1, [], by simp, hl1, by decide, ?_, fun _ => rfl⟩
      intro hf; rw [ho] at hf; exact absurd hf (by decide)
  · rw [if_neg ho]
    by_cases hm : s.index_token_mint = true
    · rw [if_pos hm]
      obtain ⟨e2, h2, hl2⟩ := queue_mint_pair_spec s a
      rw [h2]
      refine ⟨[], e2, by simp, by decide, hl2, fun _ => rfl, ?_⟩
      intro hf; rw [hm] at hf; exact absurd hf (by decide)
    · rw [if_neg hm]
      exact ⟨[], [], by simp, by decide, by decide, fun _ => rfl, fun _ => rfl⟩

/-- C10: one call of the queueing entry point appends at most one row to the
owner pending buffer and at most one row to the mint pending buffer, leaving
the rest of the state unchanged; with both index toggles disabled it appends
nothing; and the two supported token-program ids are distinct. -/
theorem C10_queue_appends_at_most_one (s : SimplePostgresClient) (a : DbAccountInfo) :
    (∃ e1 e2 : List TokenSecondaryIndex,
      queue_secondary_indexes s a =
        { s with pending_token_owner_index := s.pending_token_owner_index ++ e1,
                 pending_token_mint_index := s.pending_token_mint_index ++ e2 } ∧
      e1.length ≤ 1 ∧ e2.length ≤ 1) ∧
    (s.index_token_owner = false ∧ s.index_token_mint = false →
      queue_secondary_indexes s a = s) ∧
    inline_spl_token_id ≠ inline_spl_token_2022_id := by
  obtain ⟨e1, e2, h, hl1, hl2, hf1, hf2⟩ := queue_secondary_indexes_spec s a
  refine ⟨⟨e1, e2, h, hl1, hl2⟩, ?_, token_program_ids_distinct⟩
  rintro ⟨hfo, hfm⟩
  rw [h, hf1 hfo, hf2 hfm]
  simp

/-- Witness for C10 at a concrete input: with both toggles disabled, queueing
an account leaves the client unchanged. -/
theorem C10_queue_appends_at_most_one_witness :
    queue_secondary_indexes ⟨2, false, false, [], []⟩ ⟨[7], inline_spl_token_id, [], 1⟩ =
      ⟨2, false, false, [], []⟩ :=
  (C10_queue_appends_at_most_one ⟨2, false, false, [], []⟩
    ⟨[7], inline_spl_token_id, [], 1⟩).2.1 ⟨rfl, rfl⟩

/-! ## Reachability invariant -/

lemma bulk_insert_token_owner_index_state (db : Query → Bool) (s : SimplePostgresClient) :
    (bulk_insert_token_owner_index db s).1 =
      if s.pending_token_owner_index.length = s.batch_size then
        { s with pending_token_owner_index := [] }
      else s := by
  unfold bulk_insert_token_owner_index bulk_insert_token_index_common
  by_cases h : s.pending_token_owner_index.length = s.batch_size
  · rw [if_pos h, if_pos h]
    by_cases hdb : db (Query.bulkInsert (s.pending_token_owner_index.take s.batch_size))
    · rw [if_pos hdb]
    · rw [if_neg hdb]
  · rw [if_neg h, if_neg h]

lemma bulk_insert_token_mint_index_state (db : Query → Bool) (s : SimplePostgresClient) :
    (bulk_insert_token_mint_index db s).1 =
      if s.pending_token_mint_index.length = s.batch_size then
        { s with pending_token_mint_index := [] }
      else s := by
  unfold bulk_insert_token_mint_index bulk_insert_token_index_common
  by_cases h : s.pending_token_mint_index.length = s.batch_size
  · rw [if_pos h, if_pos h]
    by_cases hdb : db (Query.bulkInsert (s.pending_token_mint_index.take s.batch_size))
    · rw [if_pos hdb]
    · rw [if_neg hdb]
  · rw [if_neg h, if_neg h]

lemma processAccountBuffered_inv (db : Query → Bool) (s : SimplePostgresClient)
    (a : DbAccountInfo) (hbs : 0 < s.batch_size)
    (hown : s.pending_token_owner_index.length < s.batch_size)
    (hmint : s.pending_token_mint_index.length < s.batch_size) :
    0 < (processAccountBuffered db s a).batch_size ∧
    (processAccountBuffered db s a).pending_token_owner_index.length <
      (processAccountBuffered db s a).batch_size ∧
    (processAccountBuffered db s a).pending_token_mint_index.length <
      (processAccountBuffered db s a).batch_size := by
  obtain ⟨e1, e2, hq, hl1, hl2, _, _⟩ := queue_secondary_indexes_spec s a
  have hle1 : (s.pending_token_owner_index ++ e1).length ≤ s.batch_size := by
    rw [List.length_append]; omega
  have hle2 : (s.pending_token_mint_index ++ e2).length ≤ s.batch_size := by
    rw [List.length_append]; omega
  unfold processAccountBuffered
  rw [hq]
  dsimp only
  rw [bulk_insert_token_owner_index_state db]
  dsimp only
  by_cases h1 : (s.pending_token_owner_index ++ e1).length = s.batch_size
  · rw [if_pos h1]
    rw [bulk_insert_token_mint_index_state db]
    dsimp only
    by_cases h2 : (s.pending_token_mint_index ++ e2).length = s.batch_size
    · rw [if_pos h2]
      refine ⟨hbs, ?_, ?_⟩ <;> simpa using hbs
    · rw [if_neg h2]
      refine ⟨hbs, by simpa using hbs, ?_⟩
      show (s.pending_token_mint_index ++ e2).length < s.batch_size
      omega
  · rw [if_neg h1]
    rw [bulk_insert_token_mint_index_state db]
    dsimp only
    have hlt1 : (s.pending_token_owner_index ++ e1).length < s.batch_size := by omega
    by_cases h2 : (s.pending_token_mint_index ++ e2).length = s.batch_size
    · rw [if_pos h2]
      exact ⟨hbs, hlt1, by simpa using hbs⟩
    · rw [if_neg h2]
      refine ⟨hbs, hlt1, ?_⟩
      show (s.pending_token_mint_index ++ e2).length < s.batch_size
      omega

lemma reachable_inv (db : Query → Bool) (s : SimplePostgresClient) (h : Reachable db s) :
    0 < s.batch_size ∧ s.pending_token_owner_index.length < s.batch_size ∧
      s.pending_token_mint_index.length < s.batch_size := by
  induction h with
  | init bs fo fm hbs => exact ⟨hbs, by simpa using hbs, by simpa using hbs⟩
  | step t a _ ih => exact processAccountBuffered_inv db t a ih.1 ih.2.1 ih.2.2
  | clearStep t _ ih => exact ⟨ih.1, by simpa using ih.1, by simpa using ih.1⟩

/-- C2: in every reachable state of the engine — starting from empty buffers
with a positive batch size and evolving by buffered engine steps (queue then
implicit flush, per the spec's buffered path) and explicit clears — each
pending buffer holds at most `batch_size` entries. -/
theorem C2_buffer_bounded (db : Query → Bool) (s : SimplePostgresClient)
    (h : Reachable db s) :
    s.pending_token_owner_index.length ≤ s.batch_size ∧
      s.pending_token_mint_index.length ≤ s.batch_size := by
  obtain ⟨_, h1, h2⟩ := reachable_inv db s h
  exact ⟨Nat.le_of_lt h1, Nat.le_of_lt h2⟩

/-- Witness for C2 at a concrete state: the initial state with batch size 2
and both toggles on is reachable and its buffers are within the bound. -/
theorem C2_buffer_bounded_witness :
    (⟨2, true, true, [], []⟩ : SimplePostgresClient).pending_token_owner_index.length ≤
      (⟨2, true, true, [], []⟩ : SimplePostgresClient).batch_size ∧
    (⟨2, true, true, [], []⟩ : SimplePostgresClient).pending_token_mint_index.length ≤
      (⟨2, true, true, [], []⟩ : SimplePostgresClient).batch_size :=
  C2_buffer_bounded (fun _ => true) ⟨2, true, true, [], []⟩
    (Reachable.init 2 true true (by decide))

/-! ## Classifier skips and the immediate path -/

lemma queue_owner_skip (g : GenericTokenAccount) (tid : List Nat)
    (s : SimplePostgresClient) (a : DbAccountInfo)
    (h : a.owner ≠ tid ∨ unpack_account_owner g a.data = none) :
    queue_token_owner_index_generic g tid s a = s := by
  unfold queue_token_owner_index_generic
  rcases h with h | h
  · rw [if_neg h]
  · by_cases ho : a.owner = tid
    · rw [if_pos ho, h]
    · rw [if_neg ho]

lemma queue_mint_skip (g : GenericTokenAccount) (tid : List Nat)
    (s : SimplePostgresClient) (a : DbAccountInfo)
    (h : a.owner ≠ tid ∨ unpack_account_mint g a.data = none) :
    queue_token_mint_index_generic g tid s a = s := by
  unfold queue_token_mint_index_generic
  rcases h with h | h
  · rw [if_neg h]
  · by_cases ho : a.owner = tid
    · rw [if_pos ho, h]
    · rw [if_neg ho]

lemma update_owner_skip (g : GenericTokenAccount) (db : Query → Bool) (tid : List Nat)
    (a : DbAccountInfo)
    (h : a.owner ≠ tid ∨ unpack_account_owner g a.data = none) :
    update_token_owner_index_generic g db tid a = ([], Except.ok ()) := by
  unfold update_token_owner_index_generic
  rcases h with h | h
  · rw [if_neg h]
  · by_cases ho : a.owner = tid
    · rw [if_pos ho, h]
    · rw [if_neg ho]

lemma update_mint_skip (g : GenericTokenAccount) (db : Query → Bool) (tid : List Nat)
    (a : DbAccountInfo)
    (h : a.owner ≠ tid ∨ unpack_account_mint g a.data = none) :
    update_token_mint_index_generic g db tid a = ([], Except.ok ()) := by
  unfold update_token_mint_index_generic
  rcases h with h | h
  · rw [if_neg h]
  · by_cases ho : a.owner = tid
    · rw [if_pos ho, h]
    · rw [if_neg ho]

/-- C6: when the owning program id does not match a variant, or the payload
fails that variant's unpack (in particular when it is shorter than the
required layout size), the result is "not applicable" rather than an error:
the unpack returns `none`, the queueing operations for that variant leave the
state unchanged, and the immediate-update operations issue no query and
return Ok. -/
theorem C6_not_applicable_is_skip (g : GenericTokenAccount) (tid : List Nat)
    (db : Query → Bool) (s : SimplePostgresClient) (a : DbAccountInfo) :
    (a.data.length < g.requiredLen →
      unpack_account_owner g a.data = none ∧ unpack_account_mint g a.data = none) ∧
    (a.owner ≠ tid ∨ unpack_account_owner g a.data = none →
      queue_token_owner_index_generic g tid s a = s ∧
      update_token_owner_index_generic g db tid a = ([], Except.ok ())) ∧
    (a.owner ≠ tid ∨ unpack_account_mint g a.data = none →
      queue_token_mint_index_generic g tid s a = s ∧
      update_token_mint_index_generic g db tid a = ([], Except.ok ())) := by
  refine ⟨?_, ?_, ?_⟩
  · intro h
    constructor
    · unfold unpack_account_owner; rw [if_pos h]
    · unfold unpack_account_mint; rw [if_pos h]
  · intro h
    exact ⟨queue_owner_skip g tid s a h, update_owner_skip g db tid a h⟩
  · intro h
    exact ⟨queue_mint_skip g tid s a h, update_mint_skip g db tid a h⟩

/-- Witness for C6 at a concrete input: an empty payload is shorter than the
first variant's layout, its unpack is not applicable, and queueing and
immediate update leave everything unchanged. -/
theorem C6_not_applicable_is_skip_witness :
    (unpack_account_owner spl_token_Account [] = none ∧
      unpack_account_mint spl_token_Account [] = none) ∧
    (queue_token_owner_index_generic spl_token_Account inline_spl_token_id
        ⟨2, true, true, [], []⟩ ⟨[7], inline_spl_token_id, [], 1⟩ =
      ⟨2, true, true, [], []⟩ ∧
    update_token_owner_index_generic spl_token_Account (fun _ => true)
        inline_spl_token_id ⟨[7], inline_spl_token_id, [], 1⟩ =
      ([], Except.ok ())) := by
  have h := C6_not_applicable_is_skip spl_token_Account inline_spl_token_id
    (fun _ => true) ⟨2, true, true, [], []⟩ ⟨[7], inline_spl_token_id, [], 1⟩
  refine ⟨h.1 (by decide), h.2.1 (Or.inr ?_)⟩
  exact (h.1 (by decide)).1

lemma update_token_owner_index_generic_spec (g : GenericTokenAccount)
    (db : Query → Bool) (tid : List Nat) (a : DbAccountInfo) :
    ((update_token_owner_index_generic g db tid a).2 = Except.ok () ↔
      ∀ q ∈ (update_token_owner_index_generic g db tid a).1, db q = true) ∧
    (∀ e, (update_token_owner_index_generic g db tid a).2 = Except.error e →
      ∃ msg, e = AccountsDbPluginError.AccountsUpdateError msg) := by
  unfold update_token_owner_index_generic
  by_cases h : a.owner = tid
  · rw [if_pos h]
    cases hu : unpack_account_owner g a.data with
    | none =>
      refine ⟨⟨fun _ q hq => absurd hq (List.not_mem_nil q), fun _ => rfl⟩, ?_⟩
      intro e he
      exact absurd he (by simp)
    | some k =>
      dsimp only
      by_cases hdb : db (Query.singleUpsert ⟨k, a.pubkey, a.slot⟩) = true
      · rw [if_pos hdb]
        refine ⟨⟨?_, fun _ => rfl⟩, ?_⟩
        · intro _ q hq
          rw [List.mem_singleton] at hq
          rw [hq]
          exact hdb
        · intro e he
          exact absurd he (by simp)
      · rw [if_neg hdb]
        refine ⟨⟨fun he => absurd he (by simp), ?_⟩, ?_⟩
        · intro hall
          exact absurd (hall _ (List.mem_singleton_self _)) hdb
        · intro e he
          injection he with h1
          exact ⟨_, h1.symm⟩
  · rw [if_neg h]
    refine ⟨⟨fun _ q hq => absurd hq (List.not_mem_nil q), fun _ => rfl⟩, ?_⟩
    intro e he
    exact absurd he (by simp)

lemma update_token_mint_index_generic_spec (g : GenericTokenAccount)
    (db : Query → Bool) (tid : List Nat) (a : DbAccountInfo) :
    ((update_token_mint_index_generic g db tid a).2 = Except.ok () ↔
      ∀ q ∈ (update_token_mint_index_generic g db tid a).1, db q = true) ∧
    (∀ e, (update_token_mint_index_generic g db tid a).2 = Except.error e →
      ∃ msg, e = AccountsDbPluginError.AccountsUpdateError msg) := by
  unfold update_token_mint_index_generic
  by_cases h : a.owner = tid
  · rw [if_pos h]
    cases hu : unpack_account_mint g a.data with
    | none =>
      refine ⟨⟨fun _ q hq => absurd hq (List.not_mem_nil q), fun _ => rfl⟩, ?_⟩
      intro e he
      exact absurd he (by simp)
    | some k =>
      dsimp only
      by_cases hdb : db (Query.singleUpsert ⟨k, a.pubkey, a.slot⟩) = true
      · rw [if_pos hdb]
        refine ⟨⟨?_, fun _ => rfl⟩, ?_⟩
        · intro _ q hq
          rw [List.mem_singleton] at hq
          rw [hq]
          exact hdb
        · intro e he
          exact absurd he (by simp)
      · rw [if_neg hdb]
        refine ⟨⟨fun he => absurd he (by simp), ?_⟩, ?_⟩
        · intro hall
          exact absurd (hall _ (List.mem_singleton_self _)) hdb
        · intro e he
          injection he with h1
          exact ⟨_, h1.symm⟩
  · rw [if_neg h]
    refine ⟨⟨fun _ q hq => absurd hq (List.not_mem_nil q), fun _ => rfl⟩, ?_⟩
    intro e he
    exact absurd he (by simp)

lemma update_token_owner_index_spec (db : Query → Bool) (a : DbAccountInfo) :
    ((update_token_owner_index db a).2 = Except.ok () ↔
      ∀ q ∈ (update_token_owner_index db a).1, db q = true) ∧
    (∀ e, (update_token_owner_index db a).2 = Except.error e →
      ∃ msg, e = AccountsDbPluginError.AccountsUpdateError msg) ∧
    (a.owner ≠ inline_spl_token_id ∧ a.owner ≠ inline_spl_token_2022_id →
      update_token_owner_index db a = ([], Except.ok ())) := by
  obtain ⟨hiff1, herr1⟩ :=
    update_token_owner_index_generic_spec spl_token_Account db inline_spl_token_id a
  obtain ⟨hiff2, herr2⟩ :=
    update_token_owner_index_generic_spec spl_token_2022_Account db inline_spl_token_2022_id a
  unfold update_token_owner_index
  dsimp only
  cases hr1 : (update_token_owner_index_generic spl_token_Account db inline_spl_token_id a).2 with
  | error e =>
    refine ⟨⟨fun he => absurd he (by simp), ?_⟩, ?_, ?_⟩
    · intro hall
      have hok := hiff1.mpr hall
      rw [hr1] at hok
      exact absurd hok (by simp)
    · intro e2 he2
      injection he2 with h1
      obtain ⟨msg, hm⟩ := herr1 e hr1
      exact ⟨msg, h1 ▸ hm⟩
    · rintro ⟨hn1, _⟩
      have hskip := update_owner_skip spl_token_Account db inline_spl_token_id a (Or.inl hn1)
      rw [hskip] at hr1
      exact absurd hr1 (by simp)
  | ok u =>
    cases u
    refine ⟨⟨?_, ?_⟩, ?_, ?_⟩
    · intro hok q hq
      rw [List.mem_append] at hq
      rcases hq with hq | hq
      · exact hiff1.mp hr1 q hq
      · exact hiff2.mp hok q hq
    · intro hall
      apply hiff2.mpr
      intro q hq
      exact hall q (List.mem_append.mpr (Or.inr hq))
    · intro e he
      exact herr2 e he
    · rintro ⟨hn1, hn2⟩
      have h1 := update_owner_skip spl_token_Account db inline_spl_token_id a (Or.inl hn1)
      have h2 := update_owner_skip spl_token_2022_Account db inline_spl_token_2022_id a (Or.inl hn2)
      rw [h1, h2]
      rfl

lemma update_token_mint_index_spec (db : Query → Bool) (a : DbAccountInfo) :
    ((update_token_mint_index db a).2 = Except.ok () ↔
      ∀ q ∈ (update_token_mint_index db a).1, db q = true) ∧
    (∀ e, (update_token_mint_index db a).2 = Except.error e →
      ∃ msg, e = AccountsDbPluginError.AccountsUpdateError msg) ∧
    (a.owner ≠ inline_spl_token_id ∧ a.owner ≠ inline_spl_token_2022_id →
      update_token_mint_index db a = ([], Except.ok ())) := by
  obtain ⟨hiff1, herr1⟩ :=
    update_token_mint_index_generic_spec spl_token_Account db inline_spl_token_id a
  obtain ⟨hiff2, herr2⟩ :=
    update_token_mint_index_generic_spec spl_token_2022_Account db inline_spl_token_2022_id a
  unfold update_token_mint_index
  dsimp only
  cases hr1 : (update_token_mint_index_generic spl_token_Account db inline_spl_token_id a).2 with
  | error e =>
    refine ⟨⟨fun he => absurd he (by simp), ?_⟩, ?_, ?_⟩
    · intro hall
      have hok := hiff1.mpr hall
      rw [hr1] at hok
      exact absurd hok (by simp)
    · intro e2 he2
      injection he2 with h1
      obtain ⟨msg, hm⟩ := herr1 e hr1
      exact ⟨msg, h1 ▸ hm⟩
    · rintro ⟨hn1, _⟩
      have hskip := update_mint_skip spl_token_Account db inline_spl_token_id a (Or.inl hn1)
      rw [hskip] at hr1
      exact absurd hr1 (by simp)
  | ok u =>
    cases u
    refine ⟨⟨?_, ?_⟩, ?_, ?_⟩
    · intro hok q hq
      rw [List.mem_append] at hq
      rcases hq with hq | hq
      · exact hiff1.mp hr1 q hq
      · exact hiff2.mp hok q hq
    · intro hall
      apply hiff2.mpr
      intro q hq
      exact hall q (List.mem_append.mpr (Or.inr hq))
    · intro e he
      exact herr2 e he
    · rintro ⟨hn1, hn2⟩
      have h1 := update_mint_skip spl_token_Account db inline_spl_token_id a (Or.inl hn1)
      have h2 := update_mint_skip spl_token_2022_Account db inline_spl_token_2022_id a (Or.inl hn2)
      rw [h1, h2]
      rfl

/-- C7: the immediate single-row paths return Ok exactly when every database
execute call they issued succeeded (so they return an error if and only if an
execute call failed), every failure surfaces as the data-layer
`AccountsUpdateError` (never swallowed), and when the account matches neither
token-program variant they return Ok having issued no statement. -/
theorem C7_immediate_error_iff (db : Query → Bool) (a : DbAccountInfo) :
    (((update_token_owner_index db a).2 = Except.ok () ↔
        ∀ q ∈ (update_token_owner_index db a).1, db q = true) ∧
      (∀ e, (update_token_owner_index db a).2 = Except.error e →
        ∃ msg, e = AccountsDbPluginError.AccountsUpdateError msg) ∧
      (a.owner ≠ inline_spl_token_id ∧ a.owner ≠ inline_spl_token_2022_id →
        update_token_owner_index db a = ([], Except.ok ()))) ∧
    (((update_token_mint_index db a).2 = Except.ok () ↔
        ∀ q ∈ (update_token_mint_index db a).1, db q = true) ∧
      (∀ e, (update_token_mint_index db a).2 = Except.error e →
        ∃ msg, e = AccountsDbPluginError.AccountsUpdateError msg) ∧
      (a.owner ≠ inline_spl_token_id ∧ a.owner ≠ inline_spl_token_2022_id →
        update_token_mint_index db a = ([], Except.ok ()))) :=
  ⟨update_token_owner_index_spec db a, update_token_mint_index_spec db a⟩

/-- Witness for C7 at a concrete input: an account owned by neither token
program yields Ok with no issued statement on both immediate paths. -/
theorem C7_immediate_error_iff_witness :
    update_token_owner_index (fun _ => false) ⟨[7], [9], [], 1⟩ = ([], Except.ok ()) ∧
    update_token_mint_index (fun _ => false) ⟨[7], [9], [], 1⟩ = ([], Except.ok ()) :=
  ⟨(C7_immediate_error_iff (fun _ => false) ⟨[7], [9], [], 1⟩).1.2.2 (by decide),
   (C7_immediate_error_iff (fun _ => false) ⟨[7], [9], [], 1⟩).2.2.2 (by decide)⟩

end GeyserPostgres
